import Mathlib

/-!
Shallow embedding of the wardrobe designer page
(src/pages/1_Wardrobe_Designer.py).

Conventions of the embedding:
* Drawing calls (`ax.add_patch(Rectangle ...)`, `ax.plot ...`, `ax.text ...`)
  become `Primitive` values collected, in emission order, into a `Fig`.
  A two-point `ax.plot` is a `Primitive.line`; the five-point top-outline
  plot of the isometric view is a `Primitive.poly`; `ax.text` is
  `Primitive.text`.
* Coordinates are rationals.  Python's float arithmetic on the fixed
  decimal coefficients (`0.55`, `0.62`, ...) is modelled exactly in `ℚ`,
  and `int(...)` applied to those nonnegative products is modelled as
  floor division on `ℕ` (`h * 62 / 100` for `int(h * 0.62)`).  Over the
  page's input ranges the only coefficient whose float truncation can
  differ from the exact floor is `0.58` (by one millimetre at a few
  heights); no theorem below depends on the exact value of that
  coordinate, and every concrete input used below was chosen where the
  float and the exact model agree.
* Figure sizing, axis limits, aspect settings and colours are rendering
  concerns outside the generated geometry and are not modelled.
-/

/-- The per-bay record of the page: a width in millimetres and a layout
tag, one of "Single", "Drawer tower", "Double" (anything else draws as
"Single", matching the `if/elif/else` dispatch). -/
structure Bay where
  width_mm : ℕ
  layout : String
deriving DecidableEq

/-- One drawn primitive, in the shared millimetre frame of the figure. -/
inductive Primitive where
  | rect (x y w h lw : ℚ)
  | line (x1 y1 x2 y2 lw : ℚ)
  | poly (pts : List (ℚ × ℚ)) (lw : ℚ)
  | text (x y : ℚ) (s : String)
deriving DecidableEq

/-- `total_width = sum(b.width_mm for b in bays)`. -/
def totalWidth (bays : List Bay) : ℕ :=
  (bays.map Bay.width_mm).sum

/-- A produced figure: the drawn primitives in emission order, plus the
title set on the axes. -/
structure Fig where
  prims : List Primitive
  title : String
deriving DecidableEq

/-- The internals drawn for one bay of the elevation, `x` being the bay's
left edge (the body of the `if/elif/else` on `bay.layout` at lines
81-124 of the page). -/
def bayInternals (x : ℚ) (bay : Bay) (height_mm : ℕ) (customer_view : Bool) :
    List Primitive :=
  if bay.layout = "Drawer tower" then
    let tower_w : ℕ := bay.width_mm * 55 / 100
    let tower_x : ℚ := x + ((bay.width_mm : ℚ) - (tower_w : ℚ)) / 2
    let tower_h : ℕ := height_mm * 60 / 100
    let drawers : List Primitive := (List.range' 1 4).map fun (d : ℕ) =>
      Primitive.line tower_x ((d : ℚ) * (tower_h : ℚ) / 5)
        (tower_x + (tower_w : ℚ)) ((d : ℚ) * (tower_h : ℚ) / 5) 1
    let shelf : List Primitive :=
      if customer_view then [] else
        let shelf_y : ℕ := tower_h + height_mm * 5 / 100
        [Primitive.line (x + 40) (shelf_y : ℚ)
          (x + (bay.width_mm : ℚ) - 40) (shelf_y : ℚ) 1]
    Primitive.rect tower_x 0 (tower_w : ℚ) (tower_h : ℚ) (3/2) :: drawers ++ shelf
  else if bay.layout = "Double" then
    let top_y : ℕ := height_mm * 58 / 100
    let mid_y : ℕ := height_mm * 12 / 100
    let rail2_y : ℕ := mid_y + height_mm * 20 / 100
    let split : List Primitive :=
      if customer_view then [] else
        let split_y : ℕ := height_mm * 50 / 100
        [Primitive.line (x + 40) (split_y : ℚ)
          (x + (bay.width_mm : ℚ) - 40) (split_y : ℚ) 1]
    Primitive.line (x + 40) (top_y : ℚ) (x + (bay.width_mm : ℚ) - 40) (top_y : ℚ) (3/2)
      :: Primitive.line (x + 40) (rail2_y : ℚ)
          (x + (bay.width_mm : ℚ) - 40) (rail2_y : ℚ) (3/2)
      :: split
  else
    let rail_y : ℕ := height_mm * 62 / 100
    let shelf : List Primitive :=
      if customer_view then [] else
        let shelf_y : ℕ := height_mm * 85 / 100
        [Primitive.line (x + 40) (shelf_y : ℚ)
          (x + (bay.width_mm : ℚ) - 40) (shelf_y : ℚ) 1]
    Primitive.line (x + 40) (rail_y : ℚ)
        (x + (bay.width_mm : ℚ) - 40) (rail_y : ℚ) (3/2)
      :: shelf

/-- The per-bay loop of `draw_elevation` (lines 71-131): bay outline,
divider at the right edge except for the last bay, internals, and the
Installer-only width caption, accumulating `x`. -/
def elevLoop (height_mm : ℕ) (customer_view : Bool) : ℚ → List Bay → List Primitive
  | _, [] => []
  | x, bay :: rest =>
    let divider : List Primitive :=
      if rest = [] then []
      else [Primitive.line (x + (bay.width_mm : ℚ)) 0
              (x + (bay.width_mm : ℚ)) (height_mm : ℚ) 2]
    let caption : List Primitive :=
      if customer_view then []
      else [Primitive.text (x + (bay.width_mm : ℚ) / 2)
              (-(height_mm : ℚ) * 35 / 1000) (toString bay.width_mm ++ "mm")]
    Primitive.rect x 0 (bay.width_mm : ℚ) (height_mm : ℚ) (3/2)
      :: divider ++ bayInternals x bay height_mm customer_view ++ caption
      ++ elevLoop height_mm customer_view (x + (bay.width_mm : ℚ)) rest

/-- `draw_elevation` (lines 55-142): outer carcass rectangle, then the
per-bay loop; the `depth_mm` argument is accepted and unused, exactly as
in the source. -/
def draw_elevation (bays : List Bay) (height_mm : ℕ) (depth_mm : ℕ)
    (customer_view : Bool) : Fig :=
  { prims := Primitive.rect 0 0 (totalWidth bays : ℚ) (height_mm : ℚ) 2
      :: elevLoop height_mm customer_view 0 bays
    title := if customer_view then "Wardrobe (Customer View)"
             else "Wardrobe (Installer View)" }

/-- The divider loop of `draw_isometric` (lines 176-180): for every bay
but the last, a front divider at its right edge and its echo on the top
face. -/
def isoDividers (H dx dy : ℚ) : ℚ → List Bay → List Primitive
  | _, [] => []
  | x, bay :: rest =>
    let x2 := x + (bay.width_mm : ℚ)
    Primitive.line x2 0 x2 H (3/2)
      :: Primitive.line x2 H (x2 + dx) (H + dy) (3/2)
      :: isoDividers H dx dy x2 rest

/-- The internal-hint loop of `draw_isometric` (lines 184-188): one cue
line per bay at `int(height_mm * 0.75)`. -/
def isoCues (yv : ℚ) : ℚ → List Bay → List Primitive
  | _, [] => []
  | x, bay :: rest =>
    Primitive.line (x + 40) yv (x + (bay.width_mm : ℚ) - 40) yv 1
      :: isoCues yv (x + (bay.width_mm : ℚ)) rest

/-- `draw_isometric` (lines 144-199): front rectangle, skewed top
outline, two side-outline segments, dividers over `bays[:-1]`, and (only
when `customer_view` is false) one internal cue line per bay. -/
def draw_isometric (bays : List Bay) (height_mm : ℕ) (depth_mm : ℕ)
    (customer_view : Bool) : Fig :=
  let W : ℚ := (totalWidth bays : ℚ)
  let H : ℚ := (height_mm : ℚ)
  let dx : ℚ := ((depth_mm * 55 / 100 : ℕ) : ℚ)
  let dy : ℚ := ((depth_mm * 30 / 100 : ℕ) : ℚ)
  let cues : List Primitive :=
    if customer_view then []
    else isoCues ((height_mm * 75 / 100 : ℕ) : ℚ) 0 bays
  { prims := Primitive.rect 0 0 W H 2
      :: Primitive.poly [(0, H), (dx, H + dy), (W + dx, H + dy), (W, H), (0, H)] 2
      :: Primitive.line W 0 (W + dx) dy 2
      :: Primitive.line (W + dx) dy (W + dx) (H + dy) 2
      :: isoDividers H dx dy 0 bays.dropLast ++ cues
    title := if customer_view then "Isometric (Customer View)"
             else "Isometric (Installer View)" }

/-- Modelled from the spec: the repository under src has no
`WidthAllocator` — the page lets the user choose one uniform bay width
directly, so the allocator of spec §4.1 exists only in the spec.  This is
its equal-split policy: `count` widths of `base = total div count`, with
1 mm added to the first `total mod count` entries, in bay order. -/
def allocAux (base : ℕ) : ℕ → ℕ → List ℕ
  | 0, _ => []
  | c + 1, 0 => base :: allocAux base c 0
  | c + 1, r + 1 => (base + 1) :: allocAux base c r

/-- Modelled from the spec: `allocate(totalWidthMm, count)` with no
custom weights (spec §4.1, equal-split policy). -/
def allocate (totalWidthMm count : ℕ) : List ℕ :=
  allocAux (totalWidthMm / count) count (totalWidthMm % count)

theorem allocAux_length (base c r : ℕ) : (allocAux base c r).length = c := by
  induction c generalizing r with
  | zero => simp [allocAux]
  | succ c ih =>
    cases r with
    | zero => simp [allocAux, ih]
    | succ r => simp [allocAux, ih]

theorem allocAux_sum (base c r : ℕ) (h : r ≤ c) :
    (allocAux base c r).sum = c * base + r := by
  induction c generalizing r with
  | zero =>
    obtain rfl := Nat.le_zero.mp h
    simp [allocAux]
  | succ c ih =>
    cases r with
    | zero =>
      have hs := ih 0 (Nat.zero_le c)
      simp only [allocAux, List.sum_cons, hs]
      ring
    | succ r =>
      have hs := ih r (by omega)
      simp only [allocAux, List.sum_cons, hs]
      ring

theorem allocAux_getD (base c r i : ℕ) (hi : i < c) :
    (allocAux base c r).getD i 0 = base + if i < r then 1 else 0 := by
  induction c generalizing r i with
  | zero => omega
  | succ c ih =>
    cases r with
    | zero =>
      cases i with
      | zero => simp [allocAux]
      | succ i => simpa [allocAux] using ih 0 i (by omega)
    | succ r =>
      cases i with
      | zero => simp [allocAux]
      | succ i =>
        have hs := ih r i (by omega)
        simp only [allocAux, List.getD_cons_succ, Nat.add_lt_add_iff_right]
        exact hs

/-- C1: with no custom weights the allocator follows the equal-split
policy — `count` entries, entry `i` being `totalWidthMm div count` plus
1 mm exactly when `i < totalWidthMm mod count` (bay order) — the widths
sum to `totalWidthMm` exactly, and `allocate 2401 4 = [601, 600, 600,
600]`. -/
theorem C1_equal_split_allocation (totalWidthMm count : ℕ)
    (h1 : 1 ≤ count) (h2 : count ≤ totalWidthMm) :
    (allocate totalWidthMm count).length = count ∧
    (∀ i, i < count → (allocate totalWidthMm count).getD i 0 =
      totalWidthMm / count + if i < totalWidthMm % count then 1 else 0) ∧
    (allocate totalWidthMm count).sum = totalWidthMm ∧
    allocate 2401 4 = [601, 600, 600, 600] := by
  refine ⟨allocAux_length _ _ _, fun i hi => allocAux_getD _ _ _ _ hi, ?_, by decide⟩
  have hlt : totalWidthMm % count < count := Nat.mod_lt _ (by omega)
  rw [allocate, allocAux_sum _ _ _ (le_of_lt hlt)]
  exact Nat.div_add_mod totalWidthMm count

theorem C1_equal_split_allocation_witness :
    (1 ≤ 4 ∧ 4 ≤ 2401) ∧ (allocate 2401 4).sum = 2401 :=
  ⟨by decide, (C1_equal_split_allocation 2401 4 (by decide) (by decide)).2.2.1⟩

/-- C10: `draw_elevation` accepts `depth_mm` but never reads it — two
calls differing only in depth produce identical figures. -/
theorem C10_elevation_depth_independent (bays : List Bay) (height_mm d1 d2 : ℕ)
    (cv : Bool) :
    draw_elevation bays height_mm d1 cv = draw_elevation bays height_mm d2 cv := rfl

theorem bayInternals_sublist (x : ℚ) (bay : Bay) (height_mm : ℕ) :
    (bayInternals x bay height_mm true).Sublist (bayInternals x bay height_mm false) := by
  by_cases h1 : bay.layout = "Drawer tower"
  · simp only [bayInternals, h1, if_true, if_false, Bool.true_eq_false, Bool.false_eq_true]
    rw [List.append_nil]
    exact List.sublist_append_left _ _
  · by_cases h2 : bay.layout = "Double"
    · simp [bayInternals, h1, h2]
    · simp [bayInternals, h1, h2]

theorem elevLoop_sublist (height_mm : ℕ) (x : ℚ) (bays : List Bay) :
    (elevLoop height_mm true x bays).Sublist (elevLoop height_mm false x bays) := by
  induction bays generalizing x with
  | nil => simp [elevLoop]
  | cons bay rest ih =>
    simp only [elevLoop, if_true, if_false, Bool.true_eq_false, Bool.false_eq_true]
    refine List.Sublist.cons₂ _ ?_
    exact List.Sublist.append
      (List.Sublist.append
        (List.Sublist.append (List.Sublist.refl _) (bayInternals_sublist x bay height_mm))
        (List.nil_sublist _))
      (ih _)

/-- C2: for the same bays, carcass height and depth, every primitive
drawn at Customer detail is also drawn at Installer detail — for every
layout type (the bays are arbitrary), in the elevation and in the
isometric view alike. -/
theorem C2_customer_subset_installer (bays : List Bay) (height_mm depth_mm : ℕ)
    (p : Primitive) :
    (p ∈ (draw_elevation bays height_mm depth_mm true).prims →
      p ∈ (draw_elevation bays height_mm depth_mm false).prims) ∧
    (p ∈ (draw_isometric bays height_mm depth_mm true).prims →
      p ∈ (draw_isometric bays height_mm depth_mm false).prims) := by
  constructor
  · intro hp
    have hs : ((draw_elevation bays height_mm depth_mm true).prims).Sublist
        ((draw_elevation bays height_mm depth_mm false).prims) :=
      List.Sublist.cons₂ _ (elevLoop_sublist height_mm 0 bays)
    exact hs.subset hp
  · intro hp
    have hs : ((draw_isometric bays height_mm depth_mm true).prims).Sublist
        ((draw_isometric bays height_mm depth_mm false).prims) := by
      simp only [draw_isometric, if_true, if_false, Bool.true_eq_false,
        Bool.false_eq_true]
      refine List.Sublist.cons₂ _ (List.Sublist.cons₂ _ (List.Sublist.cons₂ _
        (List.Sublist.cons₂ _ ?_)))
      exact List.Sublist.append (List.Sublist.refl _) (List.nil_sublist _)
    exact hs.subset hp

theorem C2_customer_subset_installer_witness :
    (Primitive.rect 0 0 600 2000 2 ∈
      (draw_elevation [⟨600, "Single"⟩] 2000 600 true).prims) ∧
    (Primitive.rect 0 0 600 2000 2 ∈
      (draw_elevation [⟨600, "Single"⟩] 2000 600 false).prims) :=
  ⟨by decide,
   (C2_customer_subset_installer [⟨600, "Single"⟩] 2000 600
      (Primitive.rect 0 0 600 2000 2)).1 (by decide)⟩

theorem drawer_y_bounds (height_mm a : ℕ) (ha1 : 1 ≤ a) (ha2 : a < 5) :
    0 ≤ (a : ℚ) * ((height_mm * 60 / 100 : ℕ) : ℚ) / 5 ∧
    (a : ℚ) * ((height_mm * 60 / 100 : ℕ) : ℚ) / 5 ≤ (height_mm : ℚ) := by
  have h4 : (a : ℚ) ≤ 4 := by exact_mod_cast (by omega : a ≤ 4)
  have hth0 : (0 : ℚ) ≤ ((height_mm * 60 / 100 : ℕ) : ℚ) := Nat.cast_nonneg _
  have hthh : ((height_mm * 60 / 100 : ℕ) : ℚ) ≤ (height_mm : ℚ) := by
    exact_mod_cast (by omega : height_mm * 60 / 100 ≤ height_mm)
  constructor
  · positivity
  · nlinarith

theorem drawer_y_bounds_witness :
    (1 ≤ 2 ∧ 2 < 5) ∧ 0 ≤ (2 : ℚ) * ((2000 * 60 / 100 : ℕ) : ℚ) / 5 :=
  ⟨by decide, (drawer_y_bounds 2000 2 (by decide) (by decide)).1⟩

theorem bayInternals_line_y (x : ℚ) (bay : Bay) (height_mm : ℕ) (cv : Bool)
    (x1 y1 x2 y2 lw : ℚ)
    (hmem : Primitive.line x1 y1 x2 y2 lw ∈ bayInternals x bay height_mm cv) :
    (0 ≤ y1 ∧ y1 ≤ (height_mm : ℚ)) ∧ (0 ≤ y2 ∧ y2 ≤ (height_mm : ℚ)) := by
  cases cv
  · by_cases h1 : bay.layout = "Drawer tower"
    · simp [bayInternals, h1] at hmem
      rcases hmem with ⟨a, ⟨ha1, ha2⟩, hx1, hy1, hx2, hy2, hlw⟩ |
        ⟨hx1, hy1, hx2, hy2, hlw⟩
      · subst hy1; subst hy2
        exact ⟨drawer_y_bounds height_mm a ha1 ha2, drawer_y_bounds height_mm a ha1 ha2⟩
      · subst hy1; subst hy2
        have hu : ((height_mm * 60 / 100 : ℕ) : ℚ) + ((height_mm * 5 / 100 : ℕ) : ℚ)
            ≤ (height_mm : ℚ) := by
          exact_mod_cast (by omega : height_mm * 60 / 100 + height_mm * 5 / 100 ≤ height_mm)
        exact ⟨⟨by positivity, hu⟩, by positivity, hu⟩
    · by_cases h2 : bay.layout = "Double"
      · simp [bayInternals, h1, h2] at hmem
        rcases hmem with ⟨hx1, hy1, hx2, hy2, hlw⟩ | ⟨hx1, hy1, hx2, hy2, hlw⟩ |
          ⟨hx1, hy1, hx2, hy2, hlw⟩
        · subst hy1; subst hy2
          have hu : ((height_mm * 58 / 100 : ℕ) : ℚ) ≤ (height_mm : ℚ) := by
            exact_mod_cast (by omega : height_mm * 58 / 100 ≤ height_mm)
          exact ⟨⟨by positivity, hu⟩, by positivity, hu⟩
        · subst hy1; subst hy2
          have hu : ((height_mm * 12 / 100 : ℕ) : ℚ) + ((height_mm * 20 / 100 : ℕ) : ℚ)
              ≤ (height_mm : ℚ) := by
            exact_mod_cast (by omega : height_mm * 12 / 100 + height_mm * 20 / 100 ≤ height_mm)
          exact ⟨⟨by positivity, hu⟩, by positivity, hu⟩
        · subst hy1; subst hy2
          have hu : ((height_mm * 50 / 100 : ℕ) : ℚ) ≤ (height_mm : ℚ) := by
            exact_mod_cast (by omega : height_mm * 50 / 100 ≤ height_mm)
          exact ⟨⟨by positivity, hu⟩, by positivity, hu⟩
      · simp [bayInternals, h1, h2] at hmem
        rcases hmem with ⟨hx1, hy1, hx2, hy2, hlw⟩ | ⟨hx1, hy1, hx2, hy2, hlw⟩
        · subst hy1; subst hy2
          have hu : ((height_mm * 62 / 100 : ℕ) : ℚ) ≤ (height_mm : ℚ) := by
            exact_mod_cast (by omega : height_mm * 62 / 100 ≤ height_mm)
          exact ⟨⟨by positivity, hu⟩, by positivity, hu⟩
        · subst hy1; subst hy2
          have hu : ((height_mm * 85 / 100 : ℕ) : ℚ) ≤ (height_mm : ℚ) := by
            exact_mod_cast (by omega : height_mm * 85 / 100 ≤ height_mm)
          exact ⟨⟨by positivity, hu⟩, by positivity, hu⟩
  · by_cases h1 : bay.layout = "Drawer tower"
    · simp [bayInternals, h1] at hmem
      obtain ⟨a, ⟨ha1, ha2⟩, hx1, hy1, hx2, hy2, hlw⟩ := hmem
      subst hy1; subst hy2
      exact ⟨drawer_y_bounds height_mm a ha1 ha2, drawer_y_bounds height_mm a ha1 ha2⟩
    · by_cases h2 : bay.layout = "Double"
      · simp [bayInternals, h1, h2] at hmem
        rcases hmem with ⟨hx1, hy1, hx2, hy2, hlw⟩ | ⟨hx1, hy1, hx2, hy2, hlw⟩
        · subst hy1; subst hy2
          have hu : ((height_mm * 58 / 100 : ℕ) : ℚ) ≤ (height_mm : ℚ) := by
            exact_mod_cast (by omega : height_mm * 58 / 100 ≤ height_mm)
          exact ⟨⟨by positivity, hu⟩, by positivity, hu⟩
        · subst hy1; subst hy2
          have hu : ((height_mm * 12 / 100 : ℕ) : ℚ) + ((height_mm * 20 / 100 : ℕ) : ℚ)
              ≤ (height_mm : ℚ) := by
            exact_mod_cast (by omega : height_mm * 12 / 100 + height_mm * 20 / 100 ≤ height_mm)
          exact ⟨⟨by positivity, hu⟩, by positivity, hu⟩
      · simp [bayInternals, h1, h2] at hmem
        obtain ⟨hx1, hy1, hx2, hy2, hlw⟩ := hmem
        subst hy1; subst hy2
        have hu : ((height_mm * 62 / 100 : ℕ) : ℚ) ≤ (height_mm : ℚ) := by
          exact_mod_cast (by omega : height_mm * 62 / 100 ≤ height_mm)
        exact ⟨⟨by positivity, hu⟩, by positivity, hu⟩

theorem elevLoop_line_y (height_mm : ℕ) (cv : Bool) (bays : List Bay)
    (x x1 y1 x2 y2 lw : ℚ)
    (hmem : Primitive.line x1 y1 x2 y2 lw ∈ elevLoop height_mm cv x bays) :
    (0 ≤ y1 ∧ y1 ≤ (height_mm : ℚ)) ∧ (0 ≤ y2 ∧ y2 ≤ (height_mm : ℚ)) := by
  induction bays generalizing x with
  | nil => simp [elevLoop] at hmem
  | cons bay rest ih =>
    simp only [elevLoop, List.mem_cons, List.mem_append] at hmem
    rcases hmem with hA | h4
    · rcases hA with hB | h3
      · rcases hB with hdiv | hin
        · rcases hdiv with hrect | hdl
          · simp at hrect
          · split at hdl
            · simp at hdl
            · simp only [List.mem_singleton, Primitive.line.injEq] at hdl
              obtain ⟨hx1, hy1, hx2, hy2, hlw⟩ := hdl
              subst hy1; subst hy2
              exact ⟨⟨le_refl 0, Nat.cast_nonneg _⟩, Nat.cast_nonneg _, le_refl _⟩
        · exact bayInternals_line_y x bay height_mm cv x1 y1 x2 y2 lw hin
      · split at h3 <;> simp at h3
    · exact ih (x + (bay.width_mm : ℚ)) h4

/-- C3: every rail, shelf, drawer-front and divider Line emitted by the
elevation has both y-coordinates inside the carcass bounds
[plinthHeightMm, totalHeightMm] = [0, height_mm] (the page has no plinth,
so the lower bound is 0), for every bay list and every height in the
page's validated range. -/
theorem C3_elevation_lines_in_bounds (bays : List Bay) (height_mm depth_mm : ℕ)
    (cv : Bool) (x1 y1 x2 y2 lw : ℚ)
    (hh1 : 1800 ≤ height_mm) (hh2 : height_mm ≤ 3000)
    (hmem : Primitive.line x1 y1 x2 y2 lw ∈
      (draw_elevation bays height_mm depth_mm cv).prims) :
    (0 ≤ y1 ∧ y1 ≤ (height_mm : ℚ)) ∧ (0 ≤ y2 ∧ y2 ≤ (height_mm : ℚ)) := by
  simp only [draw_elevation, List.mem_cons] at hmem
  rcases hmem with h | h
  · simp at h
  · exact elevLoop_line_y height_mm cv bays 0 x1 y1 x2 y2 lw h

theorem C3_elevation_lines_in_bounds_witness :
    (1800 ≤ 2000 ∧ 2000 ≤ 3000 ∧
      Primitive.line 40 1240 560 1240 (3/2) ∈
        (draw_elevation [⟨600, "Single"⟩] 2000 600 true).prims) ∧
    ((0 ≤ (1240 : ℚ) ∧ (1240 : ℚ) ≤ ((2000 : ℕ) : ℚ)) ∧
      (0 ≤ (1240 : ℚ) ∧ (1240 : ℚ) ≤ ((2000 : ℕ) : ℚ))) :=
  ⟨⟨by decide, by decide,
    by norm_num [draw_elevation, elevLoop, bayInternals, totalWidth]; simp⟩,
   C3_elevation_lines_in_bounds [⟨600, "Single"⟩] 2000 600 true 40 1240 560 1240
     (3/2) (by decide) (by decide)
     (by norm_num [draw_elevation, elevLoop, bayInternals, totalWidth]; simp)⟩

/-- C4 counterexample: at depth 410 the isometric top face is emitted
with the integer-truncated skew dx = 225, and the vertex the claim's
formula (dx, H + dy) = (0.55 * 410, 2123) = (225.5, 2123) demands is not
among its vertices: dx is not 0.55 * depth exactly. -/
theorem C4_counterexample :
    Primitive.poly [(0, 2000), (225, 2123), (825, 2123), (600, 2000), (0, 2000)] 2
      ∈ (draw_isometric [⟨600, "Single"⟩] 2000 410 true).prims ∧
    ((451 / 2 : ℚ), (2123 : ℚ)) ∉
      ([(0, 2000), (225, 2123), (825, 2123), (600, 2000), (0, 2000)] : List (ℚ × ℚ)) ∧
    (225 : ℚ) ≠ (55 / 100) * 410 := by
  refine ⟨?_, by norm_num, by norm_num⟩
  norm_num [draw_isometric, totalWidth]

/-- C4 (amended): for every input the isometric drawing emits the
front-face carcass rectangle and a top-face outline whose vertex set is
exactly (0,H), (W,H), (W+dx,H+dy), (dx,H+dy), where the skew is the
integer truncation dx = int(0.55 * depth), dy = int(0.30 * depth) as in
the source; at depthMm = 600 the skew is (330, 180). -/
theorem C4_iso_skew_top_face (bays : List Bay) (height_mm depth_mm : ℕ)
    (cv : Bool) :
    let W : ℚ := (totalWidth bays : ℚ)
    let H : ℚ := (height_mm : ℚ)
    let dx : ℚ := ((depth_mm * 55 / 100 : ℕ) : ℚ)
    let dy : ℚ := ((depth_mm * 30 / 100 : ℕ) : ℚ)
    Primitive.rect 0 0 W H 2 ∈ (draw_isometric bays height_mm depth_mm cv).prims ∧
    Primitive.poly [(0, H), (dx, H + dy), (W + dx, H + dy), (W, H), (0, H)] 2 ∈
      (draw_isometric bays height_mm depth_mm cv).prims ∧
    (∀ v : ℚ × ℚ, v ∈ [(0, H), (dx, H + dy), (W + dx, H + dy), (W, H), (0, H)] ↔
      (v = (0, H) ∨ v = (W, H) ∨ v = (W + dx, H + dy) ∨ v = (dx, H + dy))) ∧
    ((600 * 55 / 100 : ℕ) = 330 ∧ (600 * 30 / 100 : ℕ) = 180) := by
  intro W H dx dy
  refine ⟨?_, ?_, ?_, by decide⟩
  · exact List.mem_cons_self _ _
  · exact List.mem_cons_of_mem _ (List.mem_cons_self _ _)
  · intro v
    simp only [List.mem_cons, List.not_mem_nil, or_false]
    tauto

/-- C5 counterexample: for a 600 mm Single bay at height 1800 the rail
line runs from x = 40 to x = 560 — fixed 40 mm insets, a span of
520 mm — not 85% of the bay width (510 mm) as the claim states. -/
theorem C5_counterexample :
    Primitive.line 40 1116 560 1116 (3/2)
      ∈ (draw_elevation [⟨600, "Single"⟩] 1800 600 true).prims ∧
    (560 - 40 : ℚ) ≠ (85 / 100) * 600 := by
  refine ⟨?_, by norm_num⟩
  norm_num [draw_elevation, elevLoop, bayInternals, totalWidth]
  simp

/-- C5 (amended): a Single bay with no override draws exactly one rail
Line, at height int(0.62 H) — which coincides with
clamp(0.62 H, plinth + 200, H - 100) throughout the validated height
range — running from 40 mm to width - 40 mm (fixed insets, not 85% of
the bay width); at Installer detail exactly one extra shelf Line at
int(0.85 H) plus the width caption are appended. -/
theorem C5_single_rail (w height_mm depth_mm : ℕ)
    (hh1 : 1800 ≤ height_mm) (hh2 : height_mm ≤ 3000) :
    (draw_elevation [⟨w, "Single"⟩] height_mm depth_mm true).prims =
      [Primitive.rect 0 0 (w : ℚ) (height_mm : ℚ) 2,
       Primitive.rect 0 0 (w : ℚ) (height_mm : ℚ) (3/2),
       Primitive.line 40 ((height_mm * 62 / 100 : ℕ) : ℚ)
         ((w : ℚ) - 40) ((height_mm * 62 / 100 : ℕ) : ℚ) (3/2)] ∧
    height_mm * 62 / 100 =
      max (0 + 200) (min (height_mm * 62 / 100) (height_mm - 100)) ∧
    (draw_elevation [⟨w, "Single"⟩] height_mm depth_mm false).prims =
      (draw_elevation [⟨w, "Single"⟩] height_mm depth_mm true).prims ++
        [Primitive.line 40 ((height_mm * 85 / 100 : ℕ) : ℚ)
           ((w : ℚ) - 40) ((height_mm * 85 / 100 : ℕ) : ℚ) 1,
         Primitive.text ((w : ℚ) / 2) (-(height_mm : ℚ) * 35 / 1000)
           (toString w ++ "mm")] := by
  refine ⟨?_, by omega, ?_⟩
  · simp [draw_elevation, elevLoop, bayInternals, totalWidth]
  · simp [draw_elevation, elevLoop, bayInternals, totalWidth]

theorem C5_single_rail_witness :
    (1800 ≤ 2000 ∧ 2000 ≤ 3000) ∧
    2000 * 62 / 100 = max (0 + 200) (min (2000 * 62 / 100) (2000 - 100)) :=
  ⟨⟨by decide, by decide⟩, (C5_single_rail 600 2000 600 (by decide) (by decide)).2.1⟩

/-- C6 counterexample: for a 600 mm Drawer tower bay the tower outline
Rect is int(0.55 * 600) = 330 mm wide (centred, so at x = 135), not 76%
of the bay width (456 mm) as the claim states. -/
theorem C6_counterexample :
    Primitive.rect 135 0 330 1200 (3/2)
      ∈ (draw_elevation [⟨600, "Drawer tower"⟩] 2000 600 true).prims ∧
    (330 : ℚ) ≠ (76 / 100) * 600 := by
  refine ⟨?_, by norm_num⟩
  norm_num [draw_elevation, elevLoop, bayInternals, totalWidth]

/-- C6 (amended): a Drawer tower bay draws a tower outline Rect of width
int(0.55 * w) — 55% of the bay width, not 76% — centred in the bay,
height int(0.60 * H), bottom-aligned at y = 0, and subdivided by exactly
drawerCount - 1 = 4 evenly spaced horizontal Lines at d/5 of the tower
height for d = 1..4 (the drawer count is fixed at 5 in the source, not a
parameter). -/
theorem C6_drawer_tower (w height_mm depth_mm : ℕ) :
    (draw_elevation [⟨w, "Drawer tower"⟩] height_mm depth_mm true).prims =
      [Primitive.rect 0 0 (w : ℚ) (height_mm : ℚ) 2,
       Primitive.rect 0 0 (w : ℚ) (height_mm : ℚ) (3/2),
       Primitive.rect (((w : ℚ) - ((w * 55 / 100 : ℕ) : ℚ)) / 2) 0
         ((w * 55 / 100 : ℕ) : ℚ) ((height_mm * 60 / 100 : ℕ) : ℚ) (3/2),
       Primitive.line (((w : ℚ) - ((w * 55 / 100 : ℕ) : ℚ)) / 2)
         (((height_mm * 60 / 100 : ℕ) : ℚ) / 5)
         (((w : ℚ) - ((w * 55 / 100 : ℕ) : ℚ)) / 2 + ((w * 55 / 100 : ℕ) : ℚ))
         (((height_mm * 60 / 100 : ℕ) : ℚ) / 5) 1,
       Primitive.line (((w : ℚ) - ((w * 55 / 100 : ℕ) : ℚ)) / 2)
         (2 * ((height_mm * 60 / 100 : ℕ) : ℚ) / 5)
         (((w : ℚ) - ((w * 55 / 100 : ℕ) : ℚ)) / 2 + ((w * 55 / 100 : ℕ) : ℚ))
         (2 * ((height_mm * 60 / 100 : ℕ) : ℚ) / 5) 1,
       Primitive.line (((w : ℚ) - ((w * 55 / 100 : ℕ) : ℚ)) / 2)
         (3 * ((height_mm * 60 / 100 : ℕ) : ℚ) / 5)
         (((w : ℚ) - ((w * 55 / 100 : ℕ) : ℚ)) / 2 + ((w * 55 / 100 : ℕ) : ℚ))
         (3 * ((height_mm * 60 / 100 : ℕ) : ℚ) / 5) 1,
       Primitive.line (((w : ℚ) - ((w * 55 / 100 : ℕ) : ℚ)) / 2)
         (4 * ((height_mm * 60 / 100 : ℕ) : ℚ) / 5)
         (((w : ℚ) - ((w * 55 / 100 : ℕ) : ℚ)) / 2 + ((w * 55 / 100 : ℕ) : ℚ))
         (4 * ((height_mm * 60 / 100 : ℕ) : ℚ) / 5) 1] := by
  simp [draw_elevation, elevLoop, bayInternals, totalWidth, List.range']

/-- C7 counterexample: at carcass height 300 the clearance between the
tower top int(0.60 * 300) = 180 and the carcass top is 120 < 150 mm, yet
the Installer elevation still emits the shelf Line above the tower (at
y = 180 + int(0.05 * 300) = 195): the source draws it unconditionally,
with no clearance check, refuting the claimed if-and-only-if. -/
theorem C7_counterexample :
    Primitive.line 40 195 560 195 1
      ∈ (draw_elevation [⟨600, "Drawer tower"⟩] 300 600 false).prims ∧
    ¬(150 ≤ 300 - 300 * 60 / 100) := by
  refine ⟨?_, by decide⟩
  norm_num [draw_elevation, elevLoop, bayInternals, totalWidth]

/-- C7 (amended): at Installer detail the shelf Line above the tower
(at y = int(0.60 H) + int(0.05 H)) is emitted unconditionally, for every
bay width, carcass height and depth — the source has no clearance
check; within the page's validated height range the clearance
H - int(0.60 H) is nevertheless always at least 150 mm, so the shelf is
never forced out of bounds there. -/
theorem C7_tower_shelf_unconditional (w height_mm depth_mm : ℕ) :
    (Primitive.line 40 ((height_mm * 60 / 100 + height_mm * 5 / 100 : ℕ) : ℚ)
        ((w : ℚ) - 40) ((height_mm * 60 / 100 + height_mm * 5 / 100 : ℕ) : ℚ) 1
      ∈ (draw_elevation [⟨w, "Drawer tower"⟩] height_mm depth_mm false).prims) ∧
    (1800 ≤ height_mm → 150 ≤ height_mm - height_mm * 60 / 100) := by
  constructor
  · simp [draw_elevation, elevLoop, bayInternals, totalWidth]
  · intro h
    omega

theorem C7_tower_shelf_unconditional_witness :
    1800 ≤ 2000 ∧ 150 ≤ 2000 - 2000 * 60 / 100 :=
  ⟨by decide, (C7_tower_shelf_unconditional 600 2000 600).2 (by decide)⟩

/-- Recognizes the per-bay internal cue lines of the isometric view: the
only stroke-weight-1 lines that drawing ever emits are its cue lines. -/
def isCueLine : Primitive → Bool
  | .line _ _ _ _ lw => lw == 1
  | _ => false

theorem isoCues_length (yv : ℚ) (bays : List Bay) :
    ∀ x : ℚ, (isoCues yv x bays).length = bays.length := by
  induction bays with
  | nil => intro x; simp [isoCues]
  | cons bay rest ih => intro x; simp [isoCues, ih]

theorem isoCues_countP (yv : ℚ) (bays : List Bay) :
    ∀ x : ℚ, (isoCues yv x bays).countP isCueLine = bays.length := by
  induction bays with
  | nil => intro x; simp [isoCues]
  | cons bay rest ih =>
    intro x
    simp [isoCues, List.countP_cons, ih, isCueLine]

/-- C8 counterexample: for one 600 mm Single bay the Customer isometric
drawing contains zero internal cue lines (not exactly one per bay), while
the Installer drawing contains exactly one. -/
theorem C8_counterexample :
    ((draw_isometric [⟨600, "Single"⟩] 2000 600 true).prims.countP isCueLine) = 0 ∧
    ((draw_isometric [⟨600, "Single"⟩] 2000 600 false).prims.countP isCueLine) = 1 := by
  constructor <;> decide

/-- C8 (amended): in the isometric view the Customer drawing contains no
per-bay internal cue lines at all; the Installer drawing equals the
Customer drawing plus exactly one cue line per bay (at int(0.75 H)) —
the roles in the claim are reversed in the source. -/
theorem C8_iso_cue_lines (bays : List Bay) (height_mm depth_mm : ℕ) :
    (draw_isometric bays height_mm depth_mm false).prims =
      (draw_isometric bays height_mm depth_mm true).prims ++
        isoCues ((height_mm * 75 / 100 : ℕ) : ℚ) 0 bays ∧
    (isoCues ((height_mm * 75 / 100 : ℕ) : ℚ) 0 bays).length = bays.length := by
  refine ⟨?_, isoCues_length _ _ _⟩
  simp [draw_isometric]

/-- Sound geometry check: a Rect must have positive width and height and
a Line must have distinct endpoints; polygons and captions are not
constrained by the claim. -/
def nondegenerate : Primitive → Bool
  | .rect _ _ w h _ => decide (0 < w) && decide (0 < h)
  | .line x1 y1 x2 y2 _ => !(x1 == x2 && y1 == y2)
  | .poly _ _ => true
  | .text _ _ _ => true

/-- C9 counterexample: an 80 mm Single bay (a positive width) makes the
rail Line degenerate — both endpoints are (40, 1116) — and the source
emits it anyway: there is no InvalidConfiguration failure path. -/
theorem C9_counterexample :
    Primitive.line 40 1116 40 1116 (3/2)
      ∈ (draw_elevation [⟨80, "Single"⟩] 1800 600 true).prims ∧
    nondegenerate (Primitive.line 40 1116 40 1116 (3/2)) = false := by
  refine ⟨?_, by decide⟩
  norm_num [draw_elevation, elevLoop, bayInternals, totalWidth]
  simp

theorem horiz_line_nondeg (x y lw : ℚ) (w : ℕ) (hw : 81 ≤ w) :
    nondegenerate (Primitive.line (x + 40) y (x + (w : ℚ) - 40) y lw) = true := by
  have hcast : (81 : ℚ) ≤ (w : ℚ) := by exact_mod_cast hw
  simp [nondegenerate]
  intro h
  linarith

theorem drawer_line_nondeg (tx y lw : ℚ) (w : ℕ) (hw : 81 ≤ w) :
    nondegenerate (Primitive.line tx y (tx + ((w * 55 / 100 : ℕ) : ℚ)) y lw)
      = true := by
  have h1 : (1 : ℕ) ≤ w * 55 / 100 := by omega
  have hcast : (1 : ℚ) ≤ ((w * 55 / 100 : ℕ) : ℚ) := by exact_mod_cast h1
  simp [nondegenerate]
  intro h
  linarith

theorem tower_rect_nondeg (tx lw : ℚ) (w h : ℕ) (hw : 81 ≤ w) (hh : 2 ≤ h) :
    nondegenerate (Primitive.rect tx 0 ((w * 55 / 100 : ℕ) : ℚ)
      ((h * 60 / 100 : ℕ) : ℚ) lw) = true := by
  simp [nondegenerate]
  constructor
  · exact_mod_cast (by omega : 0 < w * 55 / 100)
  · exact_mod_cast (by omega : 0 < h * 60 / 100)

theorem bayInternals_nondeg (x : ℚ) (bay : Bay) (height_mm : ℕ) (cv : Bool)
    (p : Primitive) (hw : 81 ≤ bay.width_mm) (hh : 2 ≤ height_mm)
    (hmem : p ∈ bayInternals x bay height_mm cv) :
    nondegenerate p = true := by
  cases cv
  · by_cases h1 : bay.layout = "Drawer tower"
    · simp [bayInternals, h1] at hmem
      rcases hmem with hp | ⟨a, ⟨ha1, ha2⟩, hpa⟩ | hp
      · subst hp; exact tower_rect_nondeg _ _ _ _ hw hh
      · subst hpa; exact drawer_line_nondeg _ _ _ _ hw
      · subst hp; exact horiz_line_nondeg _ _ _ _ hw
    · by_cases h2 : bay.layout = "Double"
      · simp [bayInternals, h1, h2] at hmem
        rcases hmem with hp | hp | hp <;>
          (subst hp; exact horiz_line_nondeg _ _ _ _ hw)
      · simp [bayInternals, h1, h2] at hmem
        rcases hmem with hp | hp <;>
          (subst hp; exact horiz_line_nondeg _ _ _ _ hw)
  · by_cases h1 : bay.layout = "Drawer tower"
    · simp [bayInternals, h1] at hmem
      rcases hmem with hp | ⟨a, ⟨ha1, ha2⟩, hpa⟩
      · subst hp; exact tower_rect_nondeg _ _ _ _ hw hh
      · subst hpa; exact drawer_line_nondeg _ _ _ _ hw
    · by_cases h2 : bay.layout = "Double"
      · simp [bayInternals, h1, h2] at hmem
        rcases hmem with hp | hp <;>
          (subst hp; exact horiz_line_nondeg _ _ _ _ hw)
      · simp [bayInternals, h1, h2] at hmem
        subst hmem; exact horiz_line_nondeg _ _ _ _ hw

theorem elevLoop_nondeg (height_mm : ℕ) (cv : Bool) (hh : 2 ≤ height_mm) :
    ∀ bays : List Bay, (∀ b ∈ bays, 81 ≤ b.width_mm) →
      ∀ x : ℚ, ∀ p ∈ elevLoop height_mm cv x bays, nondegenerate p = true := by
  intro bays
  induction bays with
  | nil => intro _ x p hp; simp [elevLoop] at hp
  | cons bay rest ih =>
    intro hw x p hp
    have hwb : 81 ≤ bay.width_mm := hw bay (by simp)
    have hwr : ∀ b ∈ rest, 81 ≤ b.width_mm := fun b hb => hw b (by simp [hb])
    simp only [elevLoop, List.mem_cons, List.mem_append] at hp
    rcases hp with hA | h4
    · rcases hA with hB | h3
      · rcases hB with hdiv | hin
        · rcases hdiv with hrect | hdl
          · subst hrect
            simp [nondegenerate]
            constructor
            · exact_mod_cast (by omega : 0 < bay.width_mm)
            · exact_mod_cast (by omega : 0 < height_mm)
          · split at hdl
            · simp at hdl
            · simp only [List.mem_singleton] at hdl
              subst hdl
              simp [nondegenerate]
              intro h
              have hpos : (0 : ℚ) < (height_mm : ℚ) := by
                exact_mod_cast (by omega : 0 < height_mm)
              exact absurd h.symm (ne_of_gt hpos)
        · exact bayInternals_nondeg x bay height_mm cv p hwb hh hin
      · split at h3
        · simp at h3
        · simp only [List.mem_singleton] at h3
          subst h3
          simp [nondegenerate]
    · exact ih hwr (x + (bay.width_mm : ℚ)) p h4

/-- C9 (amended): whenever every bay is at least 81 mm wide and the
carcass height is at least 2 mm — in particular throughout the page's
validated ranges (width at least 300, height at least 1800) — no Line the
elevation emits has coinciding endpoints and no Rect has nonpositive
size.  Outside that range the source has no InvalidConfiguration failure
path: a too-narrow bay yields a degenerate primitive instead (see the
counterexample). -/
theorem C9_no_degenerate_primitives (bays : List Bay) (height_mm depth_mm : ℕ)
    (cv : Bool) (p : Primitive)
    (hne : bays ≠ [])
    (hw : bays.all (fun b => 81 ≤ b.width_mm) = true)
    (hh : 2 ≤ height_mm)
    (hp : p ∈ (draw_elevation bays height_mm depth_mm cv).prims) :
    nondegenerate p = true := by
  have hw1 : ∀ b ∈ bays, 81 ≤ b.width_mm := by
    intro b hb
    simpa using List.all_eq_true.mp hw b hb
  simp only [draw_elevation, List.mem_cons] at hp
  rcases hp with hc | hl
  · subst hc
    obtain ⟨b0, rest, rfl⟩ := List.exists_cons_of_ne_nil hne
    have h81 : 81 ≤ b0.width_mm := hw1 b0 (by simp)
    have htot : 0 < totalWidth (b0 :: rest) := by
      simp only [totalWidth, List.map_cons, List.sum_cons]
      omega
    simp [nondegenerate]
    constructor
    · exact_mod_cast htot
    · exact_mod_cast (by omega : 0 < height_mm)
  · exact elevLoop_nondeg height_mm cv hh bays hw1 0 p hl

theorem C9_no_degenerate_primitives_witness :
    (([⟨600, "Single"⟩] : List Bay) ≠ [] ∧
      ([⟨600, "Single"⟩] : List Bay).all (fun b => 81 ≤ b.width_mm) = true ∧
      2 ≤ 2000 ∧
      Primitive.rect 0 0 ((totalWidth [⟨600, "Single"⟩] : ℕ) : ℚ) ((2000 : ℕ) : ℚ) 2
        ∈ (draw_elevation [⟨600, "Single"⟩] 2000 600 true).prims) ∧
    nondegenerate (Primitive.rect 0 0 ((totalWidth [⟨600, "Single"⟩] : ℕ) : ℚ)
      ((2000 : ℕ) : ℚ) 2) = true :=
  ⟨⟨by decide, by decide, by decide, by decide⟩,
   C9_no_degenerate_primitives [⟨600, "Single"⟩] 2000 600 true _
     (by decide) (by decide) (by decide) (by decide)⟩
